import Mathlib

set_option linter.unusedVariables false

/-!
Verification development for the commerce domain engine described in the
repository's specification: catalog, cart store and checkout commit.

The repository ships the data model declarations in `src/types/product.ts`
(`Product`, `CartItem`, `Cart`); the behavioural parts (CartStore operations,
CatalogIndex queries, the CheckoutPipeline commit and the InventoryOracle) are
described by the specification but left unimplemented in the repository (the
tutorial text leaves the cart logic as an exercise), so those operations are
modelled here from the specification, faithful to its words, on top of the
declared data model.  Prices are currency-minor-unit naturals as the spec
recommends.
-/

namespace Shop

/-- Inventory record.  `quantityAvailable` and the stored `inStock` flag follow
the `quantity` and `inStock` fields declared on `Product` in
`src/types/product.ts`; `lowStockThreshold` follows the spec data model
(§3 Inventory). -/
structure Inventory where
  quantityAvailable : Nat
  lowStockThreshold : Nat
  inStock : Bool
  deriving DecidableEq

/-- Product variant (spec §3 Variant): attribute mapping, price delta added to
the base price, and its own stock record. -/
structure Variant where
  id : String
  attributes : List (String × String)
  priceDelta : Nat
  stock : Inventory
  deriving DecidableEq

/-- Product, following the declaration in `src/types/product.ts` (`id`, `name`,
`description`, price, `comparePrice`, the `inStock`/`quantity` inventory
fields, category, `isActive`, `createdAt`) extended with the spec data-model
fields the catalog contract uses (`tags`, `variants`, a rating aggregate). -/
structure Product where
  id : String
  name : String
  description : String
  basePrice : Nat
  comparePrice : Option Nat
  categories : List String
  tags : List String
  variants : List Variant
  rating : Nat
  isActive : Bool
  createdAt : Nat
  inventory : Inventory
  deriving DecidableEq

/-- Cart line.  `productId`, `quantity` and `unitPriceAtAdd` follow `CartItem`
in `src/types/product.ts` (the `price` field there is the price captured at
add time); `variantId`, `addedAt` and the revalidation flags follow the spec
data model (§3 CartLine, §4.2 revalidate). -/
structure CartLine where
  productId : String
  variantId : Option String
  quantity : Nat
  unitPriceAtAdd : Nat
  addedAt : Nat
  unavailable : Bool
  quantityReduced : Bool
  deriving DecidableEq

/-- Cart, following the declaration in `src/types/product.ts` (`items` plus a
stored `total` field) extended with the spec's version counter (§3 Cart). -/
structure Cart where
  items : List CartLine
  total : Nat
  version : Nat
  deriving DecidableEq

/-- The (productId, variantId) key that uniquely identifies a cart line
(spec §3 CartLine). -/
def lineKey (l : CartLine) : String × Option String :=
  (l.productId, l.variantId)

/-- Monetary contribution of one line: `unitPriceAtAdd × quantity`. -/
def lineAmount (l : CartLine) : Nat :=
  l.unitPriceAtAdd * l.quantity

/-- Sum of `unitPriceAtAdd × quantity` over the lines not flagged
`unavailable` (spec §4.2 computeTotals: unavailable lines are excluded). -/
def subtotal (items : List CartLine) : Nat :=
  ((items.filter fun l => !l.unavailable).map lineAmount).sum

/-- The spec's formula for the cart total (§8): sum of
`unitPriceAtAdd × quantity` over the available lines with quantity > 0. -/
def positiveSubtotal (items : List CartLine) : Nat :=
  ((items.filter fun l => !l.unavailable && decide (0 < l.quantity)).map lineAmount).sum

/-- Modelled from the spec: `CartStore.computeTotals` (§4.2) — not implemented
in the repository.  The total is derived on demand from the current lines. -/
def computeTotals (c : Cart) : Nat :=
  subtotal c.items

/-- The empty cart. -/
def emptyCart : Cart :=
  ⟨[], 0, 0⟩

/-- Rebuilds the cart value after a mutation: the stored `total` field declared
on `Cart` in `src/types/product.ts` is recomputed from the new lines, so no
mutation can leave it stale (spec §3 Cart: derived total, never cached). -/
def rebuild (items : List CartLine) (version : Nat) : Cart :=
  ⟨items, subtotal items, version⟩

/-- Typed cart errors (spec §4.2). -/
inductive CartError where
  | productNotFound
  | variantRequired
  | invalidQuantity
  | lineNotFound
  deriving DecidableEq

/-- Resolves a product id against the catalog. -/
def findProduct (catalog : List Product) (pid : String) : Option Product :=
  catalog.find? fun p => p.id == pid

/-- Current catalog price for a product and optional variant: base price plus
the variant's price delta (spec §4.2 addItem). -/
def currentUnitPrice (p : Product) (vid : Option String) : Nat :=
  match vid with
  | none => p.basePrice
  | some v =>
    match p.variants.find? fun w => w.id == v with
    | some w => p.basePrice + w.priceDelta
    | none => p.basePrice

/-- Merges a new line into the line list: when a line with the same
(productId, variantId) key already exists its quantity is incremented by the
new line's quantity and nothing is appended; otherwise the new line is
appended (spec §3 CartLine uniqueness). -/
def mergeLine (items : List CartLine) (l : CartLine) : List CartLine :=
  if items.any fun x => decide (lineKey x = lineKey l) then
    items.map fun x =>
      if lineKey x = lineKey l then { x with quantity := x.quantity + l.quantity } else x
  else items ++ [l]

/-- Modelled from the spec: `CartStore.addItem` (§4.2) — the implementation is
not part of the repository.  Fails with `productNotFound` when the id is
unresolvable, `variantRequired` when the product has variants but none was
supplied, `invalidQuantity` when the quantity is < 1; otherwise merges into the
existing (productId, variantId) line or appends a new line, captures
`unitPriceAtAdd` from the current catalog price, recomputes the stored total
and increments the version counter. -/
def addItem (catalog : List Product) (c : Cart) (pid : String) (vid : Option String)
    (qty : Nat) (now : Nat) : Except CartError Cart :=
  match findProduct catalog pid with
  | none => .error .productNotFound
  | some p =>
    if p.variants ≠ [] ∧ vid = none then .error .variantRequired
    else if qty < 1 then .error .invalidQuantity
    else
      .ok (rebuild
        (mergeLine c.items ⟨pid, vid, qty, currentUnitPrice p vid, now, false, false⟩)
        (c.version + 1))

/-- Modelled from the spec: `CartStore.removeItem` (§4.2) — not implemented in
the repository.  Removing an absent line is not an error, simply a no-op
returning the unchanged cart. -/
def removeItem (c : Cart) (pid : String) (vid : Option String) : Cart :=
  if c.items.any fun l => decide (lineKey l = (pid, vid)) then
    rebuild (c.items.filter fun l => decide (lineKey l ≠ (pid, vid))) (c.version + 1)
  else c

/-- Modelled from the spec: `CartStore.updateQuantity` (§4.2) — not implemented
in the repository.  Quantity 0 is equivalent to `removeItem`; otherwise fails
with `lineNotFound` when no line has the key. -/
def updateQuantity (c : Cart) (pid : String) (vid : Option String) (qty : Nat) :
    Except CartError Cart :=
  if qty = 0 then .ok (removeItem c pid vid)
  else if c.items.any fun l => decide (lineKey l = (pid, vid)) then
    .ok (rebuild
      (c.items.map fun l => if lineKey l = (pid, vid) then { l with quantity := qty } else l)
      (c.version + 1))
  else .error .lineNotFound

/-- Quantity currently available for a cart line, or `none` when the product is
unresolvable or inactive or the variant no longer exists (spec §4.2
revalidate). -/
def availableQuantity (catalog : List Product) (l : CartLine) : Option Nat :=
  match findProduct catalog l.productId with
  | none => none
  | some p =>
    if p.isActive then
      match l.variantId with
      | none => some p.inventory.quantityAvailable
      | some v =>
        match p.variants.find? fun w => w.id == v with
        | some w => some w.stock.quantityAvailable
        | none => none
    else none

/-- Modelled from the spec: the per-line part of `CartStore.revalidate`
(§4.2) — not implemented in the repository.  A line whose product is inactive
or unresolvable or whose variant no longer exists is flagged `unavailable`;
a line whose quantity exceeds the current available quantity is clamped down
to it and flagged `quantityReduced`.  No line is deleted. -/
def revalidateLine (catalog : List Product) (l : CartLine) : CartLine :=
  match availableQuantity catalog l with
  | none => { l with unavailable := true }
  | some avail =>
    if avail < l.quantity then { l with quantity := avail, quantityReduced := true }
    else l

/-- Modelled from the spec: `CartStore.revalidate` (§4.2) — not implemented in
the repository.  Every line is re-checked; lines are only flagged or clamped,
never deleted. -/
def revalidate (catalog : List Product) (c : Cart) : Cart :=
  rebuild (c.items.map (revalidateLine catalog)) (c.version + 1)

/-- A cart mutation, for reachability statements over mutation sequences. -/
inductive CartOp where
  | add (pid : String) (vid : Option String) (qty : Nat) (now : Nat)
  | update (pid : String) (vid : Option String) (qty : Nat)
  | remove (pid : String) (vid : Option String)
  | reval
  deriving DecidableEq

/-- The three basic cart mutations (`addItem` / `updateQuantity` /
`removeItem`), as opposed to `revalidate`. -/
def CartOp.isBasic : CartOp → Bool
  | .reval => false
  | _ => true

/-- Applies one mutation to the cart; a mutation that fails with a typed error
leaves the cart unchanged. -/
def applyOp (catalog : List Product) (c : Cart) : CartOp → Cart
  | .add pid vid qty now =>
    match addItem catalog c pid vid qty now with
    | .ok c2 => c2
    | .error _ => c
  | .update pid vid qty =>
    match updateQuantity c pid vid qty with
    | .ok c2 => c2
    | .error _ => c
  | .remove pid vid => removeItem c pid vid
  | .reval => revalidate catalog c

/-- The cart state reached by a mutation sequence from the empty cart. -/
def runOps (catalog : List Product) (ops : List CartOp) : Cart :=
  ops.foldl (applyOp catalog) emptyCart

/-- Typed checkout failure reasons (spec §4.3); `insufficientStock` names the
offending lines. -/
inductive FailReason where
  | insufficientStock (lines : List CartLine)
  | cartChanged
  | timeout
  deriving DecidableEq

/-- CheckoutPipeline states (spec §4.3). -/
inductive Step where
  | review
  | shippingInfo
  | shippingMethod
  | payment
  | confirming
  | completed
  | failed (reason : FailReason)
  deriving DecidableEq

/-- Order, created only by a successful checkout completion (spec §3 Order). -/
structure Order where
  id : String
  lineItems : List CartLine
  total : Nat
  deriving DecidableEq

/-- Outcome of the `Confirming → Completed` commit transition: the pipeline
step entered, the order (if any), the live cart store afterwards, the
authoritative stock afterwards, and whether payment was charged. -/
structure CommitResult where
  step : Step
  order : Option Order
  cart : Cart
  stock : String × Option String → Nat
  paymentCharged : Bool

/-- The lines of a snapshot that cannot be satisfied by the current stock. -/
def shortLines (stock : String × Option String → Nat) (lines : List CartLine) :
    List CartLine :=
  lines.filter fun l => decide (stock (lineKey l) < l.quantity)

/-- Modelled from the spec: the `Confirming → Completed` commit transition of
the CheckoutPipeline (§4.3) together with `InventoryOracle.commitReservation`
(§6) — none of this code exists in the repository.  The stock of every line of
the snapshot is re-checked at the commit instant; when every line is
satisfiable the authoritative stock is atomically decremented, an order is
created from the snapshot, payment is charged and the cart store is cleared.
Otherwise the transition fails with `insufficientStock` naming the offending
lines, moves to `failed`, creates no order, charges no payment, and leaves the
live cart untouched. -/
def confirmCommit (stock : String × Option String → Nat) (snapshot : Cart)
    (liveCart : Cart) (orderId : String) : CommitResult :=
  if (shortLines stock snapshot.items).isEmpty then
    { step := .completed
      order := some ⟨orderId, snapshot.items, subtotal snapshot.items⟩
      cart := emptyCart
      stock := fun k =>
        stock k
          - ((snapshot.items.filter fun l => decide (lineKey l = k)).map
              CartLine.quantity).sum
      paymentCharged := true }
  else
    { step := .failed (.insufficientStock (shortLines stock snapshot.items))
      order := none
      cart := liveCart
      stock := stock
      paymentCharged := false }

/-- Modelled from the spec: an InventoryOracle write to an inventory record
(§3 Inventory, §6 — the oracle is interface-only in the repository).
`inStock` is derived: setting the quantity re-derives it as
`quantityAvailable > 0`. -/
def setQuantity (inv : Inventory) (q : Nat) : Inventory :=
  { inv with quantityAvailable := q, inStock := decide (0 < q) }

/-- Modelled from the spec: the stock decrement performed by
`InventoryOracle.commitReservation` on one record (§6) — interface-only in the
repository.  The decrement only happens when the requested units are
available, and `inStock` is re-derived from the new quantity. -/
def commitUnits (inv : Inventory) (qty : Nat) : Inventory :=
  if qty ≤ inv.quantityAvailable then
    { inv with
      quantityAvailable := inv.quantityAvailable - qty
      inStock := decide (0 < inv.quantityAvailable - qty) }
  else inv

/-- An InventoryOracle mutation on one inventory record. -/
inductive InvOp where
  | set (q : Nat)
  | commit (qty : Nat)
  deriving DecidableEq

/-- Applies one oracle mutation to an inventory record. -/
def applyInvOp (inv : Inventory) : InvOp → Inventory
  | .set q => setQuantity inv q
  | .commit q => commitUnits inv q

/-- A freshly created inventory record with a derived `inStock` flag. -/
def mkInventory (q threshold : Nat) : Inventory :=
  ⟨q, threshold, decide (0 < q)⟩

/-- Catalog sort modes (spec §4.1). -/
inductive SortMode where
  | priceAsc
  | priceDesc
  | newest
  | rating
  | relevance
  deriving DecidableEq

/-- Typed catalog query errors (spec §4.1). -/
inductive QueryError where
  | invalidQuery
  deriving DecidableEq

/-- Catalog query filter (spec §4.1): structural filters are AND-combined,
`tags` is ANY-match, `page` is 1-based and `pageSize` must be positive. -/
structure QueryFilter where
  categoryIds : Option (List String)
  priceMin : Option Nat
  priceMax : Option Nat
  minRating : Option Nat
  inStockOnly : Bool
  tags : Option (List String)
  searchText : Option String
  sort : SortMode
  page : Nat
  pageSize : Nat
  deriving DecidableEq

/-- Substring test used by the text match: an empty needle matches everything,
otherwise the needle must occur in the haystack. -/
def strContains (hay needle : String) : Bool :=
  needle.isEmpty || decide (2 ≤ (hay.splitOn needle).length)

/-- Modelled from the spec: the relevance score of a product against the
query's search text, matched against name and description (§4.1) — the
CatalogIndex is not implemented in the repository. -/
def matchScore (text : Option String) (p : Product) : Nat :=
  match text with
  | none => 0
  | some t =>
    (if strContains p.name t then 2 else 0) + (if strContains p.description t then 1 else 0)

/-- Modelled from the spec: whether a product satisfies every specified filter
option (§4.1): category ids AND-combined, inclusive price range, minimum
rating, `inStockOnly`, ANY-match tags, and search-text match. -/
def matchesFilter (f : QueryFilter) (p : Product) : Bool :=
  (match f.categoryIds with
   | none => true
   | some cs => cs.all fun c => p.categories.contains c) &&
  (match f.priceMin with
   | none => true
   | some m => decide (m ≤ p.basePrice)) &&
  (match f.priceMax with
   | none => true
   | some m => decide (p.basePrice ≤ m)) &&
  (match f.minRating with
   | none => true
   | some r => decide (r ≤ p.rating)) &&
  (!f.inStockOnly || p.inventory.inStock) &&
  (match f.tags with
   | none => true
   | some ts => ts.any fun t => p.tags.contains t) &&
  (match f.searchText with
   | none => true
   | some t => t.isEmpty || decide (0 < matchScore (some t) p))

/-- Sort key for a query: ascending comparisons on this key realise each sort
mode (descending modes negate), so smaller keys come first (spec §4.1). -/
def sortKey (f : QueryFilter) (p : Product) : Int :=
  match f.sort with
  | .priceAsc => (p.basePrice : Int)
  | .priceDesc => -(p.basePrice : Int)
  | .newest => -(p.createdAt : Int)
  | .rating => -(p.rating : Int)
  | .relevance => -(matchScore f.searchText p : Int)

/-- The result ordering of a query: by sort key, ties broken by product id
ascending for determinism (spec §4.1). -/
def queryLE (f : QueryFilter) (a b : Product) : Prop :=
  sortKey f a < sortKey f b ∨ (sortKey f a = sortKey f b ∧ a.id ≤ b.id)

instance (f : QueryFilter) : DecidableRel (queryLE f) := fun a b =>
  inferInstanceAs
    (Decidable (sortKey f a < sortKey f b ∨ (sortKey f a = sortKey f b ∧ a.id ≤ b.id)))

instance (f : QueryFilter) : IsTotal Product (queryLE f) :=
  ⟨fun a b => by
    unfold queryLE
    rcases lt_trichotomy (sortKey f a) (sortKey f b) with h | h | h
    · exact Or.inl (Or.inl h)
    · rcases le_total a.id b.id with hid | hid
      · exact Or.inl (Or.inr ⟨h, hid⟩)
      · exact Or.inr (Or.inr ⟨h.symm, hid⟩)
    · exact Or.inr (Or.inl h)⟩

instance (f : QueryFilter) : IsTrans Product (queryLE f) :=
  ⟨fun a b c hab hbc => by
    unfold queryLE at hab hbc ⊢
    rcases hab with hab | ⟨hab, hab2⟩
    · rcases hbc with hbc | ⟨hbc, hbc2⟩
      · exact Or.inl (lt_trans hab hbc)
      · exact Or.inl (lt_of_lt_of_eq hab hbc)
    · rcases hbc with hbc | ⟨hbc, hbc2⟩
      · exact Or.inl (lt_of_eq_of_lt hab hbc)
      · exact Or.inr ⟨hab.trans hbc, le_trans hab2 hbc2⟩⟩

/-- The active products matching every specified filter, in catalog order. -/
def queryMatches (catalog : List Product) (f : QueryFilter) : List Product :=
  catalog.filter fun p => p.isActive && matchesFilter f p

/-- Modelled from the spec: `CatalogIndex.query` (§4.1) — not implemented in
the repository.  Fails with `invalidQuery` on a non-positive page or page
size; otherwise filters the active products by every specified filter, sorts
deterministically (ties by id), and paginates after filtering and sorting,
returning the page and the total matching count. -/
def query (catalog : List Product) (f : QueryFilter) :
    Except QueryError (List Product × Nat) :=
  if f.pageSize = 0 ∨ f.page = 0 then .error .invalidQuery
  else
    .ok
      (((List.insertionSort (queryLE f) (queryMatches catalog f)).drop
          ((f.page - 1) * f.pageSize)).take f.pageSize,
        (queryMatches catalog f).length)

/-! ### Helper lemmas -/

theorem rebuild_total (items : List CartLine) (v : Nat) :
    (rebuild items v).total = subtotal (rebuild items v).items := rfl

theorem subtotal_eq_positiveSubtotal (items : List CartLine) :
    subtotal items = positiveSubtotal items := by
  induction items with
  | nil => rfl
  | cons l t ih =>
    by_cases hu : l.unavailable
    · simp [subtotal, positiveSubtotal, List.filter_cons, hu] at ih ⊢
      exact ih
    · by_cases hq : 0 < l.quantity
      · simp [subtotal, positiveSubtotal, List.filter_cons, hu, hq] at ih ⊢
        exact ih
      · have hq0 : l.quantity = 0 := by omega
        simp [subtotal, positiveSubtotal, List.filter_cons, hu, hq, lineAmount, hq0] at ih ⊢
        exact ih

theorem mergeLine_of_mem (items : List CartLine) (l : CartLine)
    (h : (items.any fun x => decide (lineKey x = lineKey l)) = true) :
    mergeLine items l
      = items.map fun x =>
          if lineKey x = lineKey l then { x with quantity := x.quantity + l.quantity } else x :=
  if_pos h

theorem mergeLine_of_not_mem (items : List CartLine) (l : CartLine)
    (h : (items.any fun x => decide (lineKey x = lineKey l)) = false) :
    mergeLine items l = items ++ [l] :=
  if_neg (by simp [h])

/-- Characterisation of a successful `addItem`. -/
theorem addItem_ok_cases (catalog : List Product) (c : Cart) (pid : String)
    (vid : Option String) (qty now : Nat) (c2 : Cart)
    (h : addItem catalog c pid vid qty now = .ok c2) :
    ∃ p, findProduct catalog pid = some p ∧ ¬(p.variants ≠ [] ∧ vid = none) ∧ ¬qty < 1 ∧
      c2 = rebuild
        (mergeLine c.items ⟨pid, vid, qty, currentUnitPrice p vid, now, false, false⟩)
        (c.version + 1) := by
  unfold addItem at h
  cases hf : findProduct catalog pid with
  | none => rw [hf] at h; simp at h
  | some p =>
    rw [hf] at h
    dsimp only at h
    by_cases h1 : p.variants ≠ [] ∧ vid = none
    · rw [if_pos h1] at h; simp at h
    · rw [if_neg h1] at h
      by_cases h2 : qty < 1
      · rw [if_pos h2] at h; simp at h
      · rw [if_neg h2] at h
        exact ⟨p, rfl, h1, h2, ((Except.ok.injEq _ _).mp h).symm⟩

/-- A key-preserving map does not change the list of line keys. -/
theorem map_lineKey_of_preserving (items : List CartLine) (f : CartLine → CartLine)
    (h : ∀ l, lineKey (f l) = lineKey l) :
    (items.map f).map lineKey = items.map lineKey := by
  rw [List.map_map]
  exact List.map_congr_left fun l _ => h l

theorem lineKey_bump (k : String × Option String) (q : Nat) (l : CartLine) :
    lineKey (if lineKey l = k then { l with quantity := l.quantity + q } else l)
      = lineKey l := by
  split_ifs with h
  · simp [lineKey]
  · rfl

theorem lineKey_setQty (k : String × Option String) (q : Nat) (l : CartLine) :
    lineKey (if lineKey l = k then { l with quantity := q } else l) = lineKey l := by
  split_ifs with h
  · simp [lineKey]
  · rfl

theorem lineKey_revalidateLine (catalog : List Product) (l : CartLine) :
    lineKey (revalidateLine catalog l) = lineKey l := by
  unfold revalidateLine
  cases availableQuantity catalog l with
  | none => rfl
  | some a =>
    dsimp only
    split_ifs with h
    · rfl
    · rfl

/-- Generic invariant preservation over a mutation sequence. -/
theorem foldl_inv {σ ι : Type} (g : σ → ι → σ) (P : σ → Prop)
    (hstep : ∀ s i, P s → P (g s i)) :
    ∀ (ops : List ι) (s : σ), P s → P (ops.foldl g s) := by
  intro ops
  induction ops with
  | nil => intro s hs; exact hs
  | cons i t ih => intro s hs; exact ih (g s i) (hstep s i hs)

/-- The stored total is never stale: every mutation re-derives it. -/
theorem applyOp_totalFresh (catalog : List Product) (c : Cart) (op : CartOp)
    (h : c.total = subtotal c.items) :
    (applyOp catalog c op).total = subtotal (applyOp catalog c op).items := by
  cases op with
  | add pid vid qty now =>
    dsimp only [applyOp]
    cases hadd : addItem catalog c pid vid qty now with
    | error e => exact h
    | ok c2 =>
      obtain ⟨p, _, _, _, rfl⟩ := addItem_ok_cases catalog c pid vid qty now c2 hadd
      rfl
  | update pid vid qty =>
    dsimp only [applyOp]
    unfold updateQuantity
    split_ifs with h1 h2
    · dsimp only
      unfold removeItem
      split_ifs with h3
      · rfl
      · exact h
    · rfl
    · exact h
  | remove pid vid =>
    dsimp only [applyOp]
    unfold removeItem
    split_ifs with h1
    · rfl
    · exact h
  | reval =>
    rfl

/-- The line keys are pairwise distinct in every reachable cart. -/
theorem applyOp_keysNodup (catalog : List Product) (c : Cart) (op : CartOp)
    (h : (c.items.map lineKey).Nodup) :
    ((applyOp catalog c op).items.map lineKey).Nodup := by
  cases op with
  | add pid vid qty now =>
    dsimp only [applyOp]
    cases hadd : addItem catalog c pid vid qty now with
    | error e => exact h
    | ok c2 =>
      obtain ⟨p, _, _, _, rfl⟩ := addItem_ok_cases catalog c pid vid qty now c2 hadd
      show ((mergeLine c.items _).map lineKey).Nodup
      by_cases hany :
          (c.items.any fun x =>
            decide (lineKey x = lineKey ⟨pid, vid, qty, currentUnitPrice p vid, now, false, false⟩))
            = true
      · have hkeys :
            (mergeLine c.items
              ⟨pid, vid, qty, currentUnitPrice p vid, now, false, false⟩).map lineKey
              = c.items.map lineKey := by
          rw [mergeLine_of_mem _ _ hany]
          exact map_lineKey_of_preserving _ _ fun x => by
            dsimp only
            split_ifs with hx
            · simp [lineKey]
            · rfl
        rw [hkeys]
        exact h
      · rw [mergeLine_of_not_mem _ _ (by simpa using hany)]
        rw [List.map_append]
        simp only [List.map_cons, List.map_nil]
        rw [List.nodup_append]
        refine ⟨h, List.nodup_singleton _, ?_⟩
        intro k hk hk1
        simp only [List.mem_singleton] at hk1
        subst hk1
        rw [List.mem_map] at hk
        obtain ⟨x, hx, hkx⟩ := hk
        rw [List.any_eq_true] at hany
        exact hany ⟨x, hx, by simp [hkx]⟩
  | update pid vid qty =>
    dsimp only [applyOp]
    unfold updateQuantity
    split_ifs with h1 h2
    · dsimp only
      unfold removeItem
      split_ifs with h3
      · exact ((List.filter_sublist _).map lineKey).nodup h
      · exact h
    · rw [show (rebuild (c.items.map fun l =>
          if lineKey l = (pid, vid) then { l with quantity := qty } else l)
          (c.version + 1)).items = c.items.map fun l =>
          if lineKey l = (pid, vid) then { l with quantity := qty } else l from rfl,
        map_lineKey_of_preserving _ _ (lineKey_setQty (pid, vid) qty)]
      exact h
    · exact h
  | remove pid vid =>
    dsimp only [applyOp]
    unfold removeItem
    split_ifs with h1
    · exact ((List.filter_sublist _).map lineKey).nodup h
    · exact h
  | reval =>
    show ((c.items.map (revalidateLine catalog)).map lineKey).Nodup
    rw [map_lineKey_of_preserving _ _ (lineKey_revalidateLine catalog)]
    exact h

theorem runOps_totalFresh (catalog : List Product) (ops : List CartOp) :
    (runOps catalog ops).total = subtotal (runOps catalog ops).items :=
  foldl_inv (applyOp catalog) (fun c => c.total = subtotal c.items)
    (applyOp_totalFresh catalog) ops emptyCart rfl

theorem runOps_keysNodup (catalog : List Product) (ops : List CartOp) :
    ((runOps catalog ops).items.map lineKey).Nodup :=
  foldl_inv (applyOp catalog) (fun c => (c.items.map lineKey).Nodup)
    (applyOp_keysNodup catalog) ops emptyCart List.nodup_nil

/-- Field-by-field behaviour of one line under revalidation: the key and the
captured price are untouched, the quantity can only go down, and a changed
quantity is flagged `quantityReduced`. -/
theorem revalidateLine_props (catalog : List Product) (l : CartLine) :
    (revalidateLine catalog l).productId = l.productId
    ∧ (revalidateLine catalog l).variantId = l.variantId
    ∧ (revalidateLine catalog l).unitPriceAtAdd = l.unitPriceAtAdd
    ∧ (revalidateLine catalog l).quantity ≤ l.quantity
    ∧ ((revalidateLine catalog l).quantity ≠ l.quantity →
        (revalidateLine catalog l).quantityReduced = true) := by
  unfold revalidateLine
  cases availableQuantity catalog l with
  | none => exact ⟨rfl, rfl, rfl, le_refl _, fun hne => absurd rfl hne⟩
  | some a =>
    dsimp only
    split_ifs with hlt
    · exact ⟨rfl, rfl, rfl, le_of_lt hlt, fun _ => rfl⟩
    · exact ⟨rfl, rfl, rfl, le_refl _, fun hne => absurd rfl hne⟩

/-- A member of `l.zip (l.map f)` is a pair `(a, f a)` with `a ∈ l`. -/
theorem mem_zip_map {α : Type} (f : α → α) (l : List α) (pr : α × α)
    (h : pr ∈ l.zip (l.map f)) : pr.2 = f pr.1 ∧ pr.1 ∈ l := by
  induction l with
  | nil => simp at h
  | cons a t ih =>
    simp only [List.map_cons, List.zip_cons_cons, List.mem_cons] at h
    rcases h with h | h
    · subst h
      exact ⟨rfl, List.mem_cons_self _ _⟩
    · obtain ⟨h1, h2⟩ := ih h
      exact ⟨h1, List.mem_cons_of_mem _ h2⟩

/-- One write to an inventory record keeps `inStock` derived from the stored
available quantity. -/
theorem applyInvOp_derived (inv : Inventory) (op : InvOp)
    (h : inv.inStock = decide (0 < inv.quantityAvailable)) :
    (applyInvOp inv op).inStock = decide (0 < (applyInvOp inv op).quantityAvailable) := by
  cases op with
  | set q => rfl
  | commit q =>
    dsimp only [applyInvOp]
    unfold commitUnits
    split_ifs with hle
    · rfl
    · exact h

/-! ### Concrete fixtures for witnesses -/

/-- A concrete inventory with five available units. -/
def inv5 : Inventory := ⟨5, 1, true⟩

/-- A concrete active product without variants, priced 1000 minor units. -/
def prodP : Product :=
  ⟨"p", "Widget", "A widget", 1000, none, ["tools"], ["new"], [], 4, true, 10, inv5⟩

/-- A concrete one-product catalog. -/
def cat0 : List Product := [prodP]

/-- The cart holding three units of `prodP`, as produced by two merged adds. -/
def cart1 : Cart := ⟨[⟨"p", none, 3, 1000, 0, false, false⟩], 3000, 2⟩

/-! ### Claim theorems -/

/-- C1: for every reachable cart state and every `addItem` call whose
(productId, variantId) key matches an existing line, the resulting cart
contains no two lines with the same key: the existing line's quantity is
incremented by the requested quantity and no duplicate line is appended. -/
theorem addItem_merge_no_duplicates (catalog : List Product) (ops : List CartOp)
    (pid : String) (vid : Option String) (qty now : Nat) (c2 : Cart)
    (hmem : ((runOps catalog ops).items.any fun l => decide (lineKey l = (pid, vid))) = true)
    (hok : addItem catalog (runOps catalog ops) pid vid qty now = .ok c2) :
    (c2.items
        = (runOps catalog ops).items.map fun l =>
            if lineKey l = (pid, vid) then { l with quantity := l.quantity + qty } else l)
    ∧ c2.items.map lineKey = (runOps catalog ops).items.map lineKey
    ∧ (c2.items.map lineKey).Nodup := by
  obtain ⟨p, hf, h1, h2, rfl⟩ := addItem_ok_cases _ _ _ _ _ _ _ hok
  have hc2 :
      (rebuild
        (mergeLine (runOps catalog ops).items
          ⟨pid, vid, qty, currentUnitPrice p vid, now, false, false⟩)
        ((runOps catalog ops).version + 1)).items
        = (runOps catalog ops).items.map fun l =>
            if lineKey l = (pid, vid) then { l with quantity := l.quantity + qty } else l := by
    show mergeLine (runOps catalog ops).items
        ⟨pid, vid, qty, currentUnitPrice p vid, now, false, false⟩ = _
    rw [mergeLine_of_mem _ _ hmem]
    rfl
  refine ⟨hc2, ?_, ?_⟩
  · rw [hc2]
    exact map_lineKey_of_preserving _ _ (lineKey_bump (pid, vid) qty)
  · rw [hc2, map_lineKey_of_preserving _ _ (lineKey_bump (pid, vid) qty)]
    exact runOps_keysNodup catalog ops

/-- C1 witness: adding two more units of an already-present key merges into a
single line with distinct keys. -/
theorem addItem_merge_no_duplicates_witness :
    (((runOps cat0 [CartOp.add "p" none 1 0]).items.any fun l =>
        decide (lineKey l = ("p", none))) = true)
    ∧ addItem cat0 (runOps cat0 [CartOp.add "p" none 1 0]) "p" none 2 1 = .ok cart1
    ∧ (cart1.items.map lineKey).Nodup :=
  ⟨by decide, rfl,
    (addItem_merge_no_duplicates cat0 [CartOp.add "p" none 1 0] "p" none 2 1 cart1
      (by decide) rfl).2.2⟩

/-- C2: after any sequence of `addItem` / `updateQuantity` / `removeItem`
operations from the empty cart, the total computed by `computeTotals` equals
the sum of `unitPriceAtAdd × quantity` over the available lines with
quantity > 0, unavailable lines excluded. -/
theorem cart_total_matches_positive_lines (catalog : List Product) (ops : List CartOp)
    (hbasic : ∀ op ∈ ops, op.isBasic = true) :
    computeTotals (runOps catalog ops) = positiveSubtotal (runOps catalog ops).items :=
  subtotal_eq_positiveSubtotal (runOps catalog ops).items

/-- C2 witness: a concrete basic mutation sequence. -/
theorem cart_total_matches_positive_lines_witness :
    (∀ op ∈ [CartOp.add "p" none 2 0], op.isBasic = true)
    ∧ computeTotals (runOps cat0 [CartOp.add "p" none 2 0])
        = positiveSubtotal (runOps cat0 [CartOp.add "p" none 2 0]).items :=
  ⟨by decide, cart_total_matches_positive_lines cat0 [CartOp.add "p" none 2 0] (by decide)⟩

/-- C3: in every cart state reachable by any mutation sequence, the total
stored at the cart interface equals the total freshly recomputed from the
current lines, so no mutation leaves a stale stored total. -/
theorem cart_total_never_stale (catalog : List Product) (ops : List CartOp) :
    (runOps catalog ops).total = computeTotals (runOps catalog ops) :=
  runOps_totalFresh catalog ops

/-- C7: `addItem` fails with `productNotFound` exactly when the id is
unresolvable, with `variantRequired` exactly when the resolved product has
variants but none was supplied, with `invalidQuantity` exactly when the first
two checks pass and the quantity is < 1, and succeeds (mutating the cart by
incrementing its version) in every other case. -/
theorem addItem_error_cases (catalog : List Product) (c : Cart) (pid : String)
    (vid : Option String) (qty now : Nat) :
    (addItem catalog c pid vid qty now = .error .productNotFound
        ↔ findProduct catalog pid = none)
    ∧ (addItem catalog c pid vid qty now = .error .variantRequired
        ↔ ∃ p, findProduct catalog pid = some p ∧ p.variants ≠ [] ∧ vid = none)
    ∧ (addItem catalog c pid vid qty now = .error .invalidQuantity
        ↔ (∃ p, findProduct catalog pid = some p ∧ ¬(p.variants ≠ [] ∧ vid = none))
            ∧ qty < 1)
    ∧ ((∃ c2, addItem catalog c pid vid qty now = .ok c2)
        ↔ ∃ p, findProduct catalog pid = some p ∧ ¬(p.variants ≠ [] ∧ vid = none)
            ∧ 1 ≤ qty)
    ∧ (∀ c2, addItem catalog c pid vid qty now = .ok c2 →
        c2.version = c.version + 1) := by
  cases hf : findProduct catalog pid with
  | none => simp [addItem, hf]
  | some p =>
    by_cases h1 : p.variants ≠ [] ∧ vid = none
    · simp [addItem, hf, h1]
    · by_cases h2 : qty < 1
      · have hq0 : qty = 0 := Nat.lt_one_iff.mp h2
        simp [addItem, hf, h1, hq0]
        exact fun hv hn => h1 ⟨hv, hn⟩
      · have h2' : 1 ≤ qty := Nat.not_lt.mp h2
        simp [addItem, hf, h1, h2, rebuild, h2']
        exact fun hv hn => h1 ⟨hv, hn⟩

/-- C7 witness: a concrete unresolvable id. -/
theorem addItem_error_cases_witness :
    addItem cat0 emptyCart "nope" none 1 0 = .error .productNotFound
      ↔ findProduct cat0 "nope" = none :=
  (addItem_error_cases cat0 emptyCart "nope" none 1 0).1

/-- C8: `revalidate` never deletes a line — the list of (productId, variantId)
keys, and hence their multiset, is unchanged — and each line keeps its key and
captured price; only its quantity may be clamped down, and a reduced quantity
is flagged `quantityReduced`. -/
theorem revalidate_preserves_lines (catalog : List Product) (c : Cart) :
    (revalidate catalog c).items.map lineKey = c.items.map lineKey
    ∧ ∀ pr ∈ c.items.zip (revalidate catalog c).items,
        pr.2.productId = pr.1.productId
        ∧ pr.2.variantId = pr.1.variantId
        ∧ pr.2.unitPriceAtAdd = pr.1.unitPriceAtAdd
        ∧ pr.2.quantity ≤ pr.1.quantity
        ∧ (pr.2.quantity ≠ pr.1.quantity → pr.2.quantityReduced = true) := by
  constructor
  · show (c.items.map (revalidateLine catalog)).map lineKey = _
    exact map_lineKey_of_preserving _ _ (lineKey_revalidateLine catalog)
  · show ∀ pr ∈ c.items.zip (c.items.map (revalidateLine catalog)), _
    intro pr hpr
    obtain ⟨h2, _⟩ := mem_zip_map (revalidateLine catalog) c.items pr hpr
    rw [h2]
    exact revalidateLine_props catalog pr.1

/-- C8 witness: a concrete revalidation keeps the line keys. -/
theorem revalidate_preserves_lines_witness :
    (revalidate cat0 cart1).items.map lineKey = cart1.items.map lineKey :=
  (revalidate_preserves_lines cat0 cart1).1

/-- C9: `removeItem` on a key with no corresponding line is a no-op and not an
error: the cart after the call is identical to the cart before it. -/
theorem removeItem_absent_noop (c : Cart) (pid : String) (vid : Option String)
    (habs : ∀ l ∈ c.items, lineKey l ≠ (pid, vid)) :
    removeItem c pid vid = c := by
  have hany : (c.items.any fun l => decide (lineKey l = (pid, vid))) = false := by
    rw [List.any_eq_false]
    intro l hl
    simp only [decide_eq_true_eq]
    exact habs l hl
  simp [removeItem, hany]

/-- C9 witness: removing an absent key from a concrete cart changes nothing. -/
theorem removeItem_absent_noop_witness :
    (∀ l ∈ cart1.items, lineKey l ≠ ("q", none)) ∧ removeItem cart1 "q" none = cart1 :=
  ⟨by decide, removeItem_absent_noop cart1 "q" none (by decide)⟩

/-- C10: through any sequence of inventory writes, the stored `inStock` flag
always equals `quantityAvailable > 0` — it is derived from the stored quantity
and can never disagree with it. -/
theorem inStock_derived_from_quantity (q t : Nat) (ops : List InvOp) :
    (ops.foldl applyInvOp (mkInventory q t)).inStock
      = decide (0 < (ops.foldl applyInvOp (mkInventory q t)).quantityAvailable) :=
  foldl_inv applyInvOp (fun inv => inv.inStock = decide (0 < inv.quantityAvailable))
    applyInvOp_derived ops (mkInventory q t) rfl

/-- A concrete checkout snapshot requesting two units of `prodP`. -/
def cartSnap : Cart := ⟨[⟨"p", none, 2, 1000, 0, false, false⟩], 2000, 1⟩

/-- A concrete authoritative stock with one unit of everything. -/
def stock1 : String × Option String → Nat := fun _ => 1

/-- A concrete authoritative stock with nine units of everything. -/
def stock9 : String × Option String → Nat := fun _ => 9

/-- C4: the `Confirming → Completed` transition never succeeds while any
committed line's post-commit stock would go negative — success requires the
stock re-check at the commit instant to show sufficient quantity for every
line of the snapshot. -/
theorem confirm_completed_requires_stock (stock : String × Option String → Nat)
    (snapshot liveCart : Cart) (orderId : String)
    (h : (confirmCommit stock snapshot liveCart orderId).step = .completed) :
    ∀ l ∈ snapshot.items, l.quantity ≤ stock (lineKey l) := by
  intro l hl
  unfold confirmCommit at h
  split_ifs at h with hempty
  rw [List.isEmpty_iff] at hempty
  have hok := List.filter_eq_nil_iff.mp hempty l hl
  simp only [decide_eq_true_eq] at hok
  omega

/-- C4 witness: a concrete commit that succeeds, with ample stock for its
line. -/
theorem confirm_completed_requires_stock_witness :
    (confirmCommit stock9 cartSnap cartSnap "o1").step = .completed
    ∧ ∀ l ∈ cartSnap.items, l.quantity ≤ stock9 (lineKey l) :=
  ⟨by decide, confirm_completed_requires_stock stock9 cartSnap cartSnap "o1" (by decide)⟩

/-- C5: whenever some line of the snapshot cannot be satisfied at the commit
instant, the transition moves to `Failed(InsufficientStock)` naming the
offending lines, creates no order, charges no payment, and leaves the live
cart's lines unchanged. -/
theorem confirm_insufficient_stock_fails_cleanly
    (stock : String × Option String → Nat) (snapshot liveCart : Cart) (orderId : String)
    (h : ∃ l ∈ snapshot.items, stock (lineKey l) < l.quantity) :
    (confirmCommit stock snapshot liveCart orderId).step
        = .failed (.insufficientStock (shortLines stock snapshot.items))
    ∧ (confirmCommit stock snapshot liveCart orderId).order = none
    ∧ (confirmCommit stock snapshot liveCart orderId).paymentCharged = false
    ∧ (confirmCommit stock snapshot liveCart orderId).cart = liveCart := by
  have hne : (shortLines stock snapshot.items).isEmpty = false := by
    obtain ⟨l, hl, hlt⟩ := h
    have hmem : l ∈ shortLines stock snapshot.items :=
      List.mem_filter.mpr ⟨hl, by simpa using hlt⟩
    rcases he : (shortLines stock snapshot.items).isEmpty with _ | _
    · rfl
    · rw [List.isEmpty_iff] at he
      rw [he] at hmem
      simp at hmem
  refine ⟨?_, ?_, ?_, ?_⟩ <;> simp [confirmCommit, hne]

/-- C5 witness: a concrete snapshot asking for two units against a stock of
one. -/
theorem confirm_insufficient_stock_fails_cleanly_witness :
    (∃ l ∈ cartSnap.items, stock1 (lineKey l) < l.quantity)
    ∧ (confirmCommit stock1 cartSnap cartSnap "o1").order = none
    ∧ (confirmCommit stock1 cartSnap cartSnap "o1").paymentCharged = false
    ∧ (confirmCommit stock1 cartSnap cartSnap "o1").cart = cartSnap :=
  ⟨by decide,
    (confirm_insufficient_stock_fails_cleanly stock1 cartSnap cartSnap "o1" (by decide)).2.1,
    (confirm_insufficient_stock_fails_cleanly stock1 cartSnap cartSnap "o1" (by decide)).2.2.1,
    (confirm_insufficient_stock_fails_cleanly stock1 cartSnap cartSnap "o1" (by decide)).2.2.2⟩

/-- A concrete in-range, in-stock-only, price-ascending filter. -/
def f0 : QueryFilter :=
  ⟨none, some 500, some 1500, none, true, none, none, .priceAsc, 1, 10⟩

/-- A concrete out-of-stock product priced 700 minor units. -/
def prodQ : Product :=
  ⟨"q", "Gadget", "A gadget", 700, none, ["tools"], [], [], 5, true, 11, ⟨0, 1, false⟩⟩

/-- A concrete active in-stock product priced 1200 minor units. -/
def prodR : Product :=
  ⟨"r", "Gizmo", "A gizmo", 1200, none, ["tools"], [], [], 3, true, 12, inv5⟩

/-- A concrete three-product catalog. -/
def cat6 : List Product := [prodP, prodQ, prodR]

/-- C6: every product a query returns is an active catalog product satisfying
every specified filter, and the returned page is ordered by the deterministic
query order — sort key first, ties broken by product id ascending — under
every sort mode. -/
theorem query_active_subset_sorted (catalog : List Product) (f : QueryFilter)
    (res : List Product × Nat) (h : query catalog f = .ok res) :
    (∀ p ∈ res.1, p ∈ catalog ∧ p.isActive = true ∧ matchesFilter f p = true)
    ∧ List.Sorted (queryLE f) res.1 := by
  unfold query at h
  split_ifs at h with hq
  rw [Except.ok.injEq] at h
  subst h
  constructor
  · intro p hp
    have hp1 : p ∈ List.insertionSort (queryLE f) (queryMatches catalog f) :=
      List.mem_of_mem_drop (List.mem_of_mem_take hp)
    have hp2 : p ∈ queryMatches catalog f :=
      (List.perm_insertionSort (queryLE f) (queryMatches catalog f)).mem_iff.mp hp1
    rw [queryMatches, List.mem_filter] at hp2
    obtain ⟨hcat, hcond⟩ := hp2
    rw [Bool.and_eq_true] at hcond
    exact ⟨hcat, hcond.1, hcond.2⟩
  · exact List.Pairwise.sublist
      ((List.take_sublist _ _).trans (List.drop_sublist _ _))
      (List.sorted_insertionSort (queryLE f) (queryMatches catalog f))

/-- C6 witness: a concrete in-stock price-range query returning the matching
active products in ascending price order. -/
theorem query_active_subset_sorted_witness :
    query cat6 f0 = .ok ([prodP, prodR], 2)
    ∧ List.Sorted (queryLE f0) [prodP, prodR] :=
  ⟨rfl, (query_active_subset_sorted cat6 f0 ([prodP, prodR], 2) rfl).2⟩

end Shop
